import Mathlib

/-!
Shallow embedding of the EmbedLog library (header-only C++ sources
src/include/EmbedLog/Types.hpp, src/include/EmbedLog/Error.hpp and
src/include/EmbedLog/EmbedLog.hpp), together with theorems settling the
behavioural claims about the tokenizer and the logger.

Strings are modelled as Lean strings (lists of characters); the C++
std::string size is the character count. Machine integers (uint8, uint16,
uint64, int) are modelled as Nat; the only place where a machine bound
could matter, the microsecond field, is treated under the documented
hypothesis that it is a microseconds-of-second value below 1000000.
-/

set_option maxRecDepth 8000

namespace EmbedLog

/-- LogLevel enumeration from Types.hpp, lines 32 to 43. -/
inductive LogLevel where
  | Alert
  | Critical
  | Error
  | Warning
  | Notice
  | Info
  | Debug
  | Trace
  | None
  deriving DecidableEq, Repr

/-- Numeric value of each enumerator, exactly the uint8 values assigned in
Types.hpp (Alert = 0 through None = 8). C++ compares LogLevel values by
these numbers. -/
def LogLevel.rank : LogLevel → Nat
  | .Alert => 0
  | .Critical => 1
  | .Error => 2
  | .Warning => 3
  | .Notice => 4
  | .Info => 5
  | .Debug => 6
  | .Trace => 7
  | .None => 8

/-- Error taxonomy from Error.hpp, lines 24 to 30. -/
inductive EmbedLogErrorType where
  | Success
  | InputLengthError
  | OutputLengthError
  | LogLevelError
  deriving DecidableEq, Repr

/-- EmbedLogError struct from Error.hpp: an error type plus a message. -/
structure EmbedLogError where
  error : EmbedLogErrorType
  message : String
  deriving DecidableEq, Repr

/-- TokenType enumeration from Types.hpp, lines 114 to 127. -/
inductive TokenType where
  | Literal
  | Year
  | Month
  | Day
  | Hour
  | Minute
  | Second
  | Micro
  | Name
  | Level
  | Text
  deriving DecidableEq, Repr

/-- Token struct from Types.hpp, lines 137 to 142. The C++ width is an int
that the tokenizer only ever sets to a nonnegative run count, so Nat. -/
structure Token where
  type : TokenType
  width : Nat
  literal : String
  deriving DecidableEq, Repr

/-- TimeStamp struct from Types.hpp, lines 96 to 105, field for field. -/
structure TimeStamp where
  microseconds : Nat
  seconds : Nat
  minutes : Nat
  hours : Nat
  day : Nat
  month : Nat
  year : Nat
  deriving DecidableEq, Repr

/-- logLevelToString from Types.hpp, lines 54 to 87. The C++ escapes 033
(octal) and u001b both denote the escape character, here x1b. -/
def logLevelToString : LogLevel → String
  | .Alert => "\x1b[1;91mALERT\x1b[0m\x1b[0m"
  | .Critical => "\x1b[1;95mCRITICAL\x1b[0m\x1b[0m"
  | .Error => "\x1b[1;91mERROR\x1b[0m\x1b[0m"
  | .Warning => "\x1b[1;93mWARNING\x1b[0m\x1b[0m"
  | .Notice => "\x1b[1;96mNOTICE\x1b[0m\x1b[0m"
  | .Info => "\x1b[1;92mINFO\x1b[0m\x1b[0m"
  | .Debug => "\x1b[1;94mDEBUG\x1b[0m\x1b[0m"
  | .Trace => "\x1b[1;97mTRACE\x1b[0m\x1b[0m"
  | .None => "NONE"

/-- Default format string, EmbedLog.hpp line 34. -/
def defaultFormat : String := "[%YYYY:%MM:%DD:%hh:%mm:%ss.%uuuuuu] [%N] [%L] - %T"

/-- Default value of the member log_level_, EmbedLog.hpp line 123. -/
def defaultLogLevel : LogLevel := LogLevel.None

/-- C++ substr(pos, len) on a character list: the characters from
position pos, at most len of them. -/
def substr (s : List Char) (pos len : Nat) : String :=
  String.mk ((s.drop pos).take len)

/-- Body of the literal-collection loop of tokenizeFormat (EmbedLog.hpp
lines 208 to 211), recursing over the remaining suffix of the format so
that the recursion is structural: position i holds the head of the
suffix; advance while the character is not the percent sign. -/
def litEndGo (i : Nat) : List Char → Nat
  | [] => i
  | c :: rest => if c = '%' then i else litEndGo (i + 1) rest

/-- Position reached by the literal-collection loop of tokenizeFormat
(EmbedLog.hpp lines 208 to 211) when started at position i: advance while
in bounds and the character is not the percent sign. -/
def litEnd (s : List Char) (i : Nat) : Nat :=
  litEndGo i (s.drop i)

/-- Body of the run-counting loop of tokenizeFormat (EmbedLog.hpp lines
154 to 158), recursing over the remaining suffix of the format: position
i holds the head of the suffix; advance while the character equals
tokenChar. -/
def runEndGo (tokenChar : Char) (i : Nat) : List Char → Nat
  | [] => i
  | c :: rest => if c = tokenChar then runEndGo tokenChar (i + 1) rest else i

/-- Position reached by the run-counting loop of tokenizeFormat
(EmbedLog.hpp lines 154 to 158) when started at position i: advance while
in bounds and the character equals tokenChar. -/
def runEnd (s : List Char) (i : Nat) (tokenChar : Char) : Nat :=
  runEndGo tokenChar i (s.drop i)

/-- The switch on tokenChar in tokenizeFormat (EmbedLog.hpp lines 161 to
200), split into the fixed character table: the ten placeholder cases of
the switch, with the default case mapped to no placeholder. -/
def charToTokenType : Char → Option TokenType
  | 'Y' => some TokenType.Year
  | 'M' => some TokenType.Month
  | 'D' => some TokenType.Day
  | 'h' => some TokenType.Hour
  | 'm' => some TokenType.Minute
  | 's' => some TokenType.Second
  | 'u' => some TokenType.Micro
  | 'N' => some TokenType.Name
  | 'L' => some TokenType.Level
  | 'T' => some TokenType.Text
  | _ => Option.none

/-- The token built at EmbedLog.hpp lines 161 to 201 once the run from
position i+1 to k (exclusive) of the character tokenChar has been counted:
width is the run count k - (i+1); the literal text is empty for the ten
table characters and is the raw substring from the percent sign through
the run (substr(i, k - i)) in the default case. -/
def placeholderToken (s : List Char) (i k : Nat) (tokenChar : Char) : Token :=
  match charToTokenType tokenChar with
  | some t => ⟨t, k - (i + 1), ""⟩
  | Option.none => ⟨TokenType.Literal, k - (i + 1), substr s i (k - i)⟩

/-- The while loop of tokenizeFormat (EmbedLog.hpp lines 139 to 213), with
an explicit fuel counter since the C++ loop is not structurally
terminating; the result is none exactly when the fuel runs out with the
loop guard i < format.size() still true. Matching on the optional lookup
of position i is the loop guard plus the read of format[i]; the check of
format[i+1] against the percent sign at line 143 and the bounds test
j < format.size() at line 151 are the match on position i+1. In the C++,
when position i holds a percent sign but i+1 is out of bounds, control
falls through to the literal-collection loop at lines 207 to 212, which
does not advance i (format[i] is a percent sign) and appends an empty
literal token; the final branch below reproduces exactly that. -/
def tokenLoop (s : List Char) : Nat → Nat → List Token → Option (List Token)
  | 0, i, acc => if i < s.length then Option.none else some acc.reverse
  | fuel + 1, i, acc =>
    match s[i]? with
    | Option.none => some acc.reverse
    | some ch =>
      if ch = '%' then
        if s[i + 1]? = some '%' then
          tokenLoop s fuel (i + 2) (⟨TokenType.Literal, 0, "%"⟩ :: acc)
        else
          match s[i + 1]? with
          | some tokenChar =>
            let k := runEnd s (i + 1) tokenChar
            tokenLoop s fuel k (placeholderToken s i k tokenChar :: acc)
          | Option.none =>
            let j := litEnd s i
            tokenLoop s fuel j (⟨TokenType.Literal, 0, substr s i (j - i)⟩ :: acc)
      else
        let j := litEnd s i
        tokenLoop s fuel j (⟨TokenType.Literal, 0, substr s i (j - i)⟩ :: acc)

/-- tokenizeFormat from EmbedLog.hpp lines 135 to 215, as the fuelled
loop started at position 0 with no tokens accumulated. -/
def tokenizeFormat (fuel : Nat) (format : String) : Option (List Token) :=
  tokenLoop format.data fuel 0 []

/-- The formatNumber lambda inside formatOutput (EmbedLog.hpp lines 231 to
238): decimal representation of the number, zero characters inserted at
the front when it is shorter than the requested width. -/
def formatNumber (number : Nat) (width : Nat) : String :=
  let result := toString number
  if result.length < width then
    String.mk (List.replicate (width - result.length) '0') ++ result
  else
    result

/-- formatOutput from EmbedLog.hpp lines 229 to 303: walk the token
sequence, appending literal text verbatim and substituting placeholder
values. The member fields tokens_ and name_ are explicit arguments here.
Timestamp fields and the logger name are wrapped in the ANSI escape
sequences from the source (escape 033 is x1b); the two-character Year
width substitutes year mod 100; a Micro width below six divides the
microsecond value by ten to the power of six minus the width (the divisor
loop at lines 279 to 283); the message text is prefixed with the ANSI
reset sequence. -/
def formatOutput (tokens : List Token) (name : String) (message : String)
    (ts : TimeStamp) (levelStr : String) : String :=
  tokens.foldl (fun output token =>
    match token.type with
    | TokenType.Literal => output ++ token.literal
    | TokenType.Year =>
      if token.width = 2 then
        output ++ ("\x1b[1;97m" ++ formatNumber (ts.year % 100) token.width ++ "\x1b[0m")
      else
        output ++ ("\x1b[1;97m" ++ formatNumber ts.year token.width ++ "\x1b[0m")
    | TokenType.Month =>
      output ++ ("\x1b[1;97m" ++ formatNumber ts.month token.width ++ "\x1b[0m")
    | TokenType.Day =>
      output ++ ("\x1b[1;97m" ++ formatNumber ts.day token.width ++ "\x1b[0m")
    | TokenType.Hour =>
      output ++ ("\x1b[1;97m" ++ formatNumber ts.hours token.width ++ "\x1b[0m")
    | TokenType.Minute =>
      output ++ ("\x1b[1;97m" ++ formatNumber ts.minutes token.width ++ "\x1b[0m")
    | TokenType.Second =>
      output ++ ("\x1b[1;97m" ++ formatNumber ts.seconds token.width ++ "\x1b[0m")
    | TokenType.Micro =>
      let totalDigits := 6
      let effectiveMicro :=
        if token.width < totalDigits then
          ts.microseconds / 10 ^ (totalDigits - token.width)
        else
          ts.microseconds
      output ++ ("\x1b[1;97m" ++ formatNumber effectiveMicro token.width ++ "\x1b[0m")
    | TokenType.Name =>
      output ++ ("\x1b[1;97m" ++ name ++ "\x1b[0m")
    | TokenType.Level => output ++ levelStr
    | TokenType.Text => output ++ ("\x1b[0m" ++ message)) ""

/-- The body of EmbedLog::log (EmbedLog.hpp lines 83 to 107). The member
fields tokens_, name_ and log_level_ are explicit arguments. The variadic
printf formatting itself is outside the embedding: the argument formatted
stands for the full text that vsnprintf with an unbounded buffer would
produce from fmt and the arguments. The call snprintf(buffer, 256, ...)
at line 89 writes at most 255 characters plus a terminator into the
256-byte stack buffer, truncating the rest, so the local message equals
the first 255 characters of formatted: that truncation is modelled
explicitly. The returned pair is the EmbedLogError result together with
the single print_function_ invocation when one happens (final string and
level), or none when the sink is not called. -/
def log (tokens : List Token) (name : String) (log_level : LogLevel)
    (level : LogLevel) (formatted : String) (ts : TimeStamp) :
    EmbedLogError × Option (String × LogLevel) :=
  if level.rank > log_level.rank then
    (⟨EmbedLogErrorType.LogLevelError, "Log level is too low."⟩, Option.none)
  else
    let message := String.mk (formatted.data.take 255)
    if message.length > 255 then
      (⟨EmbedLogErrorType.OutputLengthError, "Output string is too long."⟩, Option.none)
    else
      let levelStr := logLevelToString level
      let output := formatOutput tokens name message ts levelStr
      if output.length > 255 then
        (⟨EmbedLogErrorType.OutputLengthError, "Output string is too long."⟩, Option.none)
      else
        (⟨EmbedLogErrorType.Success, "Log message printed successfully."⟩,
          some (output, level))

/-! Helper lemmas about the loop primitives. -/

/-- Once the position is past the end of the format, the loop returns the
accumulated tokens, whatever fuel remains. -/
theorem tokenLoop_at_end (s : List Char) (fuel i : Nat) (acc : List Token)
    (h : s.length ≤ i) : tokenLoop s fuel i acc = some acc.reverse := by
  cases fuel with
  | zero => simp [tokenLoop, Nat.not_lt.mpr h]
  | succ fuel => simp [tokenLoop, List.getElem?_eq_none h]

/-- Step equation of the literal-collection loop at an in-bounds
position. -/
theorem litEnd_cons (s : List Char) (i : Nat) (c : Char) (h : s[i]? = some c) :
    litEnd s i = if c = '%' then i else litEnd s (i + 1) := by
  obtain ⟨hlt, hc⟩ := List.getElem?_eq_some_iff.mp h
  unfold litEnd
  rw [List.drop_eq_getElem_cons hlt, hc]
  rfl

/-- Step equation of the literal-collection loop past the end. -/
theorem litEnd_at_end (s : List Char) (i : Nat) (h : s.length ≤ i) :
    litEnd s i = i := by
  unfold litEnd
  rw [List.drop_eq_nil_of_le h]
  rfl

/-- On a format with no percent character the literal-collection loop
started anywhere in bounds runs to the end of the format. -/
theorem litEnd_no_percent (s : List Char) (hnp : ∀ c ∈ s, c ≠ '%') :
    ∀ (n i : Nat), s.length - i = n → i ≤ s.length → litEnd s i = s.length := by
  intro n
  induction n with
  | zero =>
    intro i hn hi
    have : i = s.length := by omega
    subst this
    exact litEnd_at_end s s.length (Nat.le_refl _)
  | succ n ih =>
    intro i hn hi
    have hlt : i < s.length := by omega
    have hc : s[i]? = some s[i] := List.getElem?_eq_getElem hlt
    rw [litEnd_cons s i s[i] hc, if_neg (hnp s[i] (List.getElem_mem hlt))]
    exact ih (i + 1) (by omega) (by omega)

/-- The run-counting loop started at j stops exactly after a maximal run:
if the n positions from j hold the character c and position j + n does
not, the loop returns j + n. -/
theorem runEnd_spec (s : List Char) (c : Char) :
    ∀ (n j : Nat), (∀ m, m < n → s[j + m]? = some c) → s[j + n]? ≠ some c →
      runEnd s j c = j + n := by
  intro n
  induction n with
  | zero =>
    intro j _ hstop
    rw [Nat.add_zero] at hstop ⊢
    unfold runEnd
    cases hj : s[j]? with
    | none =>
      rw [List.drop_eq_nil_of_le (List.getElem?_eq_none_iff.mp hj)]
      rfl
    | some d =>
      obtain ⟨hlt, hd⟩ := List.getElem?_eq_some_iff.mp hj
      rw [List.drop_eq_getElem_cons hlt, hd]
      have hne : d ≠ c := fun he => hstop (he ▸ hj)
      simp [runEndGo, hne]
  | succ n ih =>
    intro j hrun hstop
    have h0 : s[j]? = some c := by simpa using hrun 0 (Nat.succ_pos n)
    obtain ⟨hlt, hd⟩ := List.getElem?_eq_some_iff.mp h0
    have hrec : runEnd s (j + 1) c = (j + 1) + n := by
      refine ih (j + 1) (fun m hm => ?_) ?_
      · rw [show j + 1 + m = j + (m + 1) by omega]
        exact hrun (m + 1) (by omega)
      · rw [show j + 1 + n = j + (n + 1) by omega]
        exact hstop
    unfold runEnd
    rw [List.drop_eq_getElem_cons hlt, hd]
    show (if c = c then runEndGo c (j + 1) (s.drop (j + 1)) else j) = j + (n + 1)
    rw [if_pos rfl,
      show runEndGo c (j + 1) (s.drop (j + 1)) = runEnd s (j + 1) c from rfl, hrec]
    omega

/-- A run of n equal characters read back from the format: taking n
characters of the suffix starting at the run start yields n copies of the
run character. -/
theorem take_of_run (s : List Char) (c : Char) :
    ∀ (n j : Nat), (∀ m, m < n → s[j + m]? = some c) →
      (s.drop j).take n = List.replicate n c := by
  intro n
  induction n with
  | zero => intro j _; simp
  | succ n ih =>
    intro j hrun
    have h0 : s[j]? = some c := by simpa using hrun 0 (Nat.succ_pos n)
    obtain ⟨hlt, hd⟩ := List.getElem?_eq_some_iff.mp h0
    rw [List.drop_eq_getElem_cons hlt, hd, List.take_succ_cons, List.replicate_succ]
    congr 1
    refine ih (j + 1) (fun m hm => ?_)
    rw [show j + 1 + m = j + (m + 1) by omega]
    exact hrun (m + 1) (by omega)

/-- One iteration of the tokenizer loop on a placeholder escape: a
percent sign at position i followed by a maximal run of n copies of a
character c from the placeholder table consumes the escape, emits one
placeholder token of the table kind with width n and empty literal text,
and continues right after the run. -/
theorem tokenLoop_placeholder_step (s : List Char) (i n fuel : Nat) (c : Char)
    (t : TokenType) (acc : List Token)
    (h0 : s[i]? = some '%')
    (htab : charToTokenType c = some t)
    (hn : 1 ≤ n)
    (hrun : ∀ m, m < n → s[i + 1 + m]? = some c)
    (hstop : s[i + 1 + n]? ≠ some c) :
    tokenLoop s (fuel + 1) i acc = tokenLoop s fuel (i + 1 + n) (⟨t, n, ""⟩ :: acc) := by
  have h1 : s[i + 1]? = some c := by simpa using hrun 0 (by omega)
  have hcp : c ≠ '%' := by
    intro he
    subst he
    simp [charToTokenType] at htab
  have hk : runEnd s (i + 1) c = i + 1 + n := runEnd_spec s c n (i + 1) hrun hstop
  simp only [tokenLoop, h0, h1, Option.some.injEq]
  rw [if_pos trivial, if_neg hcp]
  simp only [hk, placeholderToken, htab, Nat.add_sub_cancel_left]

/-- One iteration of the tokenizer loop on an unknown escape: a percent
sign at position i followed by a maximal run of n copies of a character c
outside the placeholder table (and not a percent sign) consumes the
escape, emits one Literal token whose text is the percent sign followed
by the run, and continues right after the run. -/
theorem tokenLoop_unknown_step (s : List Char) (i n fuel : Nat) (c : Char)
    (acc : List Token)
    (h0 : s[i]? = some '%')
    (htab : charToTokenType c = Option.none)
    (hcp : c ≠ '%')
    (hn : 1 ≤ n)
    (hrun : ∀ m, m < n → s[i + 1 + m]? = some c)
    (hstop : s[i + 1 + n]? ≠ some c) :
    tokenLoop s (fuel + 1) i acc
      = tokenLoop s fuel (i + 1 + n)
          (⟨TokenType.Literal, n, String.mk ('%' :: List.replicate n c)⟩ :: acc) := by
  have h1 : s[i + 1]? = some c := by simpa using hrun 0 (by omega)
  have hk : runEnd s (i + 1) c = i + 1 + n := runEnd_spec s c n (i + 1) hrun hstop
  have htext : substr s i (i + 1 + n - i) = String.mk ('%' :: List.replicate n c) := by
    obtain ⟨hlt, hc⟩ := List.getElem?_eq_some_iff.mp h0
    unfold substr
    rw [show i + 1 + n - i = n + 1 by omega, List.drop_eq_getElem_cons hlt, hc,
      List.take_succ_cons, take_of_run s c n (i + 1) hrun]
  simp only [tokenLoop, h0, h1, Option.some.injEq]
  rw [if_pos trivial, if_neg hcp]
  simp only [hk, placeholderToken, htab, Nat.add_sub_cancel_left, htext]

/-- The tokenizer loop never leaves a trailing lone percent sign: at such
a position every iteration appends an empty literal token and stays put,
so the loop consumes all its fuel and finishes none. -/
theorem tokenLoop_trailing_percent (fuel : Nat) :
    ∀ acc : List Token, tokenLoop "%".data fuel 0 acc = Option.none := by
  induction fuel with
  | zero => intro acc; simp [tokenLoop]
  | succ fuel ih =>
    intro acc
    show tokenLoop "%".data fuel 0 (⟨TokenType.Literal, 0, substr "%".data 0 0⟩ :: acc)
      = Option.none
    exact ih _

/-! Claim theorems about the tokenizer. -/

/-- C2: the claim that tokenizeFormat is total and terminating fails on
the code. On the one-character template consisting of a lone percent
sign, every loop iteration appends an empty literal token without
advancing the position, so the fuelled loop returns none for every fuel
value: the C++ while loop never terminates on this input. -/
theorem tokenizeFormat_diverges_on_trailing_percent :
    ∀ fuel : Nat, tokenizeFormat fuel "%" = Option.none :=
  fun fuel => tokenLoop_trailing_percent fuel []

/-- C5: whenever a percent sign is followed by a maximal run of n copies
of a placeholder-table character c, a single loop iteration emits exactly
one placeholder token whose kind is the table image of c and whose width
is n, and the scan resumes after the run; in particular the template
percent-YYYY tokenizes to the single token (Year, width 4) and
abc-percent-Ldef tokenizes to Literal abc, Level of width 1, Literal
def. -/
theorem tokenizeFormat_placeholder_run :
    (∀ (s : List Char) (i n fuel : Nat) (c : Char) (t : TokenType) (acc : List Token),
      s[i]? = some '%' →
      charToTokenType c = some t →
      1 ≤ n →
      (∀ m, m < n → s[i + 1 + m]? = some c) →
      s[i + 1 + n]? ≠ some c →
      tokenLoop s (fuel + 1) i acc = tokenLoop s fuel (i + 1 + n) (⟨t, n, ""⟩ :: acc))
    ∧ tokenizeFormat 2 "%YYYY" = some [⟨TokenType.Year, 4, ""⟩]
    ∧ tokenizeFormat 4 "abc%Ldef"
        = some [⟨TokenType.Literal, 0, "abc"⟩, ⟨TokenType.Level, 1, ""⟩,
            ⟨TokenType.Literal, 0, "def"⟩] :=
  ⟨tokenLoop_placeholder_step, by decide, by decide⟩

/-- Witness for C5: the placeholder step applied to the concrete template
percent-mm-colon at position 0, a run of two copies of the character m. -/
theorem tokenizeFormat_placeholder_run_witness :
    tokenLoop "%mm:".data 6 0 []
      = tokenLoop "%mm:".data 5 3 [⟨TokenType.Minute, 2, ""⟩] :=
  tokenizeFormat_placeholder_run.1 "%mm:".data 0 2 5 'm' TokenType.Minute []
    (by decide) (by decide) (by decide)
    (by intro m hm; interval_cases m <;> decide)
    (by decide)

/-- C6: whenever a percent sign is followed by a maximal run of n copies
of a character outside the placeholder table (and distinct from the
percent sign), a single loop iteration emits exactly one Literal token
whose text is the percent sign followed by the run, and the scan resumes
after the run; tokenization passes such escapes through rather than
failing. -/
theorem tokenizeFormat_unknown_escape_literal :
    (∀ (s : List Char) (i n fuel : Nat) (c : Char) (acc : List Token),
      s[i]? = some '%' →
      charToTokenType c = Option.none →
      c ≠ '%' →
      1 ≤ n →
      (∀ m, m < n → s[i + 1 + m]? = some c) →
      s[i + 1 + n]? ≠ some c →
      tokenLoop s (fuel + 1) i acc
        = tokenLoop s fuel (i + 1 + n)
            (⟨TokenType.Literal, n, String.mk ('%' :: List.replicate n c)⟩ :: acc))
    ∧ tokenizeFormat 3 "a%??b"
        = some [⟨TokenType.Literal, 0, "a"⟩, ⟨TokenType.Literal, 2, "%??"⟩,
            ⟨TokenType.Literal, 0, "b"⟩] :=
  ⟨tokenLoop_unknown_step, by decide⟩

/-- Witness for C6: the unknown-escape step applied to the concrete
template percent-q-bang at position 0, a run of one copy of q. -/
theorem tokenizeFormat_unknown_escape_literal_witness :
    tokenLoop "%q!".data 4 0 []
      = tokenLoop "%q!".data 3 2
          [⟨TokenType.Literal, 1, String.mk ('%' :: List.replicate 1 'q')⟩] :=
  tokenizeFormat_unknown_escape_literal.1 "%q!".data 0 1 3 'q' []
    (by decide) (by decide) (by decide) (by decide)
    (by intro m hm; have hm0 : m = 0 := by omega
        subst hm0; decide)
    (by decide)

/-- C7 counterexample: on the empty template the tokenizer returns the
empty token sequence, which is not the single empty Literal token the
claim asserts for every percent-free template including the empty one. -/
theorem tokenizeFormat_empty_counterexample :
    tokenizeFormat 1 "" = some []
    ∧ (some ([] : List Token)) ≠ some [⟨TokenType.Literal, 0, ""⟩] :=
  ⟨by decide, by decide⟩

/-- C7 amended: for every nonempty template containing no percent
character, tokenizeFormat (with any positive fuel) returns exactly one
Literal token whose text equals the whole template. -/
theorem tokenizeFormat_no_percent_single_literal (format : String) (fuel : Nat)
    (hne : format ≠ "") (hnp : ∀ c ∈ format.data, c ≠ '%') (hf : 1 ≤ fuel) :
    tokenizeFormat fuel format = some [⟨TokenType.Literal, 0, format⟩] := by
  obtain ⟨f, rfl⟩ : ∃ f, fuel = f + 1 := ⟨fuel - 1, by omega⟩
  have hdata : format.data ≠ [] := by
    intro h
    exact hne (String.ext h)
  have hlen : 0 < format.data.length := List.length_pos.mpr hdata
  have h0 : format.data[0]? = some format.data[0] := List.getElem?_eq_getElem hlen
  have h0np : format.data[0] ≠ '%' := hnp _ (List.getElem_mem hlen)
  have hj : litEnd format.data 0 = format.data.length :=
    litEnd_no_percent format.data hnp (format.data.length - 0) 0 rfl (by omega)
  have hsub : substr format.data 0 (format.data.length - 0) = format := by
    unfold substr
    rw [Nat.sub_zero, List.drop_zero, List.take_length]
  unfold tokenizeFormat
  simp only [tokenLoop, h0]
  rw [if_neg h0np]
  simp only [hj, hsub]
  rw [tokenLoop_at_end _ _ _ _ (Nat.le_refl _)]
  rfl

/-- Witness for the amended C7 at the concrete percent-free template
hello with fuel 1. -/
theorem tokenizeFormat_no_percent_single_literal_witness :
    tokenizeFormat 1 "hello" = some [⟨TokenType.Literal, 0, "hello"⟩] :=
  tokenizeFormat_no_percent_single_literal "hello" 1 (by decide) (by decide)
    (by decide)

/-! Helper lemmas about log. -/

/-- The message-length guard at EmbedLog.hpp line 91 never fires: the
snprintf truncation leaves at most 255 characters. -/
theorem log_message_guard_dead (formatted : String) :
    ¬ (String.mk (formatted.data.take 255)).length > 255 := by
  simp [List.length_take]

/-- When the severity passes the threshold and the rendered output is
longer than 255 characters, log returns OutputLengthError and does not
call the sink. -/
theorem log_too_long_aux (tokens : List Token) (name : String)
    (log_level level : LogLevel) (formatted : String) (ts : TimeStamp)
    (hle : level.rank ≤ log_level.rank)
    (hout : 255 < (formatOutput tokens name (String.mk (formatted.data.take 255)) ts
      (logLevelToString level)).length) :
    log tokens name log_level level formatted ts
      = (⟨EmbedLogErrorType.OutputLengthError, "Output string is too long."⟩,
          Option.none) := by
  have hg : ¬ level.rank > log_level.rank := Nat.not_lt.mpr hle
  simp only [log, if_neg hg, if_neg (log_message_guard_dead formatted), if_pos hout]

/-! Claim theorems about log. -/

/-- C1: the claim that a formatted message of length 256 yields
OutputLengthError with no sink call fails on the code. snprintf writes
into a 256-byte stack buffer, so the message is silently truncated to 255
characters and the guard at EmbedLog.hpp line 91 never fires; with an
empty token sequence the call returns Success and invokes the sink. -/
theorem log_truncates_overlong_message :
    (String.mk (List.replicate 256 'a')).length = 256
    ∧ log [] "app" LogLevel.None LogLevel.Info
        (String.mk (List.replicate 256 'a')) ⟨0, 0, 0, 0, 0, 0, 0⟩
        = (⟨EmbedLogErrorType.Success, "Log message printed successfully."⟩,
            some ("", LogLevel.Info)) :=
  ⟨by decide, by decide⟩

/-- C3: log returns LogLevelError exactly when the severity value is
numerically greater than (less urgent than) the threshold value, and in
that case it returns immediately with no sink invocation. -/
theorem log_levelError_iff_above_threshold (tokens : List Token) (name : String)
    (log_level level : LogLevel) (formatted : String) (ts : TimeStamp) :
    ((log tokens name log_level level formatted ts).1.error
        = EmbedLogErrorType.LogLevelError
      ↔ level.rank > log_level.rank)
    ∧ (level.rank > log_level.rank →
      log tokens name log_level level formatted ts
        = (⟨EmbedLogErrorType.LogLevelError, "Log level is too low."⟩, Option.none)) := by
  refine ⟨⟨fun h => ?_, fun hg => by simp [log, hg]⟩, fun hg => by simp [log, hg]⟩
  by_contra hg
  simp only [log, if_neg hg] at h
  split_ifs at h

/-- Witness for C3: with threshold Warning and severity Debug (less
urgent), log returns LogLevelError and the sink is not called. -/
theorem log_levelError_iff_above_threshold_witness :
    log [] "app" LogLevel.Warning LogLevel.Debug "boot" ⟨0, 0, 0, 0, 0, 0, 0⟩
      = (⟨EmbedLogErrorType.LogLevelError, "Log level is too low."⟩, Option.none) :=
  (log_levelError_iff_above_threshold [] "app" LogLevel.Warning LogLevel.Debug
    "boot" ⟨0, 0, 0, 0, 0, 0, 0⟩).2 (by decide)

/-- C4: when the call passes the threshold and the fully rendered output
is longer than 255 characters, log returns OutputLengthError and the sink
is not invoked; and the sink is invoked, exactly once with the final
rendered string and the severity level, only when log returns Success. -/
theorem log_output_bound_and_sink (tokens : List Token) (name : String)
    (log_level level : LogLevel) (formatted : String) (ts : TimeStamp) :
    (level.rank ≤ log_level.rank →
      255 < (formatOutput tokens name (String.mk (formatted.data.take 255)) ts
        (logLevelToString level)).length →
      log tokens name log_level level formatted ts
        = (⟨EmbedLogErrorType.OutputLengthError, "Output string is too long."⟩,
            Option.none))
    ∧ ((log tokens name log_level level formatted ts).2 ≠ Option.none →
      (log tokens name log_level level formatted ts).1.error = EmbedLogErrorType.Success
      ∧ (log tokens name log_level level formatted ts).2
          = some (formatOutput tokens name (String.mk (formatted.data.take 255)) ts
              (logLevelToString level), level)) := by
  refine ⟨fun hle hout => log_too_long_aux tokens name log_level level formatted ts hle hout,
    fun hsink => ?_⟩
  by_cases hg : level.rank > log_level.rank
  · exact absurd (by simp [log, hg]) hsink
  · by_cases hout : 255 < (formatOutput tokens name (String.mk (formatted.data.take 255))
        ts (logLevelToString level)).length
    · exact absurd (by simp [log, hg, log_message_guard_dead formatted, hout]) hsink
    · constructor <;>
        simp [log, hg, log_message_guard_dead formatted, Nat.not_lt.mp, hout]

/-- Witness for C4: a 256-character literal template pushes the rendered
output over the bound all by itself, so log reports OutputLengthError and
the sink stays uncalled. -/
theorem log_output_bound_and_sink_witness :
    log [⟨TokenType.Literal, 0, String.mk (List.replicate 256 'x')⟩] "core"
        LogLevel.None LogLevel.Info "m" ⟨0, 0, 0, 0, 0, 0, 0⟩
      = (⟨EmbedLogErrorType.OutputLengthError, "Output string is too long."⟩,
          Option.none) :=
  (log_output_bound_and_sink [⟨TokenType.Literal, 0, String.mk (List.replicate 256 'x')⟩]
    "core" LogLevel.None LogLevel.Info "m" ⟨0, 0, 0, 0, 0, 0, 0⟩).1
    (by decide) (by decide)

/-- C8: a Microsecond placeholder of width w below six renders the
most-significant w digits of the six-digit microsecond value: integer
division by ten to the power six minus w, zero-padded to width w, with no
rounding; width 3 against microsecond value 123456 renders 123. -/
theorem formatOutput_micro_truncates (name msg levelStr : String) (ts : TimeStamp)
    (w : Nat) (_hm : ts.microseconds < 1000000) (_hw : 1 ≤ w) (hw6 : w < 6) :
    formatOutput [⟨TokenType.Micro, w, ""⟩] name msg ts levelStr
      = "\x1b[1;97m" ++ formatNumber (ts.microseconds / 10 ^ (6 - w)) w ++ "\x1b[0m"
    ∧ formatOutput [⟨TokenType.Micro, 3, ""⟩] "core" "msg" ⟨123456, 0, 0, 0, 0, 0, 0⟩
        "INFO" = "\x1b[1;97m123\x1b[0m" :=
  ⟨by simp [formatOutput, hw6], by decide⟩

/-- Witness for C8 at microsecond value 123456 and width 3. -/
theorem formatOutput_micro_truncates_witness :
    formatOutput [⟨TokenType.Micro, 3, ""⟩] "core" "msg" ⟨123456, 0, 0, 0, 0, 0, 0⟩
        "INFO"
      = "\x1b[1;97m" ++ formatNumber (123456 / 10 ^ (6 - 3)) 3 ++ "\x1b[0m" :=
  (formatOutput_micro_truncates "core" "msg" "INFO" ⟨123456, 0, 0, 0, 0, 0, 0⟩ 3
    (by decide) (by decide) (by decide)).1

/-- C9: each substituted timestamp field and the logger name are wrapped
in the ANSI escape sequences for bright styling and reset, the message
text is prefixed with the ANSI reset sequence, and the 255-character
bound that log enforces on the rendered output is measured on the string
including these escape sequences. -/
theorem formatOutput_ansi_wrapping (tokens : List Token)
    (name msg levelStr formatted : String) (ts : TimeStamp) (w : Nat)
    (log_level level : LogLevel) :
    (formatOutput [⟨TokenType.Year, w, ""⟩] name msg ts levelStr
      = "\x1b[1;97m" ++ (if w = 2 then formatNumber (ts.year % 100) w
          else formatNumber ts.year w) ++ "\x1b[0m")
    ∧ formatOutput [⟨TokenType.Month, w, ""⟩] name msg ts levelStr
      = "\x1b[1;97m" ++ formatNumber ts.month w ++ "\x1b[0m"
    ∧ formatOutput [⟨TokenType.Day, w, ""⟩] name msg ts levelStr
      = "\x1b[1;97m" ++ formatNumber ts.day w ++ "\x1b[0m"
    ∧ formatOutput [⟨TokenType.Hour, w, ""⟩] name msg ts levelStr
      = "\x1b[1;97m" ++ formatNumber ts.hours w ++ "\x1b[0m"
    ∧ formatOutput [⟨TokenType.Minute, w, ""⟩] name msg ts levelStr
      = "\x1b[1;97m" ++ formatNumber ts.minutes w ++ "\x1b[0m"
    ∧ formatOutput [⟨TokenType.Second, w, ""⟩] name msg ts levelStr
      = "\x1b[1;97m" ++ formatNumber ts.seconds w ++ "\x1b[0m"
    ∧ formatOutput [⟨TokenType.Micro, w, ""⟩] name msg ts levelStr
      = "\x1b[1;97m" ++ formatNumber (if w < 6 then ts.microseconds / 10 ^ (6 - w)
          else ts.microseconds) w ++ "\x1b[0m"
    ∧ formatOutput [⟨TokenType.Name, w, ""⟩] name msg ts levelStr
      = "\x1b[1;97m" ++ name ++ "\x1b[0m"
    ∧ formatOutput [⟨TokenType.Text, w, ""⟩] name msg ts levelStr = "\x1b[0m" ++ msg
    ∧ (level.rank ≤ log_level.rank →
      255 < (formatOutput tokens name (String.mk (formatted.data.take 255)) ts
        (logLevelToString level)).length →
      (log tokens name log_level level formatted ts).1.error
        = EmbedLogErrorType.OutputLengthError) := by
  refine ⟨?_, by simp [formatOutput], by simp [formatOutput], by simp [formatOutput],
    by simp [formatOutput], by simp [formatOutput], ?_,
    by simp [formatOutput], by simp [formatOutput], fun hle hout => ?_⟩
  · by_cases h2 : w = 2 <;> simp [formatOutput, h2]
  · by_cases h6 : w < 6 <;> simp [formatOutput, h6]
  · rw [log_too_long_aux tokens name log_level level formatted ts hle hout]

/-- Witness for C9: the logger name rendered with its ANSI wrapping, and
a 256-character literal template whose escape-free content already
exceeds the bound, making log report OutputLengthError. -/
theorem formatOutput_ansi_wrapping_witness :
    formatOutput [⟨TokenType.Name, 1, ""⟩] "core" "m" ⟨0, 0, 0, 0, 0, 0, 0⟩ "L"
      = "\x1b[1;97m" ++ "core" ++ "\x1b[0m"
    ∧ (log [⟨TokenType.Literal, 0, String.mk (List.replicate 256 'x')⟩] "core"
        LogLevel.None LogLevel.Info "m" ⟨0, 0, 0, 0, 0, 0, 0⟩).1.error
      = EmbedLogErrorType.OutputLengthError :=
  ⟨(formatOutput_ansi_wrapping [] "core" "m" "L" "m" ⟨0, 0, 0, 0, 0, 0, 0⟩ 1
      LogLevel.None LogLevel.Info).2.2.2.2.2.2.2.1,
    by
      rw [(formatOutput_ansi_wrapping
        [⟨TokenType.Literal, 0, String.mk (List.replicate 256 'x')⟩] "core" "m" "L"
        "m" ⟨0, 0, 0, 0, 0, 0, 0⟩ 1 LogLevel.None LogLevel.Info).2.2.2.2.2.2.2.2.2
        (by decide) (by decide)]⟩

/-- C10: a freshly constructed logger has threshold None, whose numeric
value 8 is the maximum of all level values, so before any setLogLevel
call log never returns LogLevelError for any severity. -/
theorem log_default_threshold_never_levelError :
    defaultLogLevel = LogLevel.None
    ∧ LogLevel.rank LogLevel.None = 8
    ∧ (∀ l : LogLevel, l.rank ≤ 8)
    ∧ (∀ (tokens : List Token) (name : String) (level : LogLevel)
        (formatted : String) (ts : TimeStamp),
        (log tokens name defaultLogLevel level formatted ts).1.error
          ≠ EmbedLogErrorType.LogLevelError) := by
  refine ⟨rfl, rfl, fun l => ?_, fun tokens name level formatted ts => ?_⟩
  · cases l <;> decide
  · have hg : ¬ level.rank > defaultLogLevel.rank := by cases level <;> decide
    simp only [log, if_neg hg]
    split_ifs <;> simp

/-- Witness for C10: at the default threshold a Trace call, the least
urgent severity, is not rejected by the level check. -/
theorem log_default_threshold_never_levelError_witness :
    (log [] "core" defaultLogLevel LogLevel.Trace "m" ⟨0, 0, 0, 0, 0, 0, 0⟩).1.error
      ≠ EmbedLogErrorType.LogLevelError :=
  log_default_threshold_never_levelError.2.2.2 [] "core" LogLevel.Trace "m"
    ⟨0, 0, 0, 0, 0, 0, 0⟩

end EmbedLog
